import Mathlib

/-!
Shallow embedding of `addressEncoder/addressEncoder.go` from the
go-owcdrivers repository, together with proofs about its encode/decode
behaviour.

Modelling conventions:
* Go `[]byte` values are `List Nat` (each entry a byte value); a Go `nil`
  slice is the empty list (the two are observationally equal in this code:
  `catData` and `recoverData` treat them alike at the byte level).
* Go `string` values used as address text are `List Char`; the short
  enum-like descriptor fields (`encodeType`, `hashType`, `checksumType`,
  `alphabet`) stay Lean `String`s compared with `=`, exactly as the Go code
  compares them with `==`.
* The external collaborators (owcrypt hashing, blake256, base58, bech32,
  base32PolyMod, eip55 codecs) are out of scope per the design document;
  they are fields of a `Collaborators` structure the embedding is
  parameterised by.
* Go runtime panics (out-of-range indexing, negative slice bounds) are
  modelled explicitly: every fallible computation returns a `Res` value
  which is `ok`, `err` (a returned Go `error`), or `crash` (a panic).
* `encoding/hex` from the Go standard library is embedded concretely
  (`hexEncodeList`, `hexDecodeList`) following its documented algorithm.
-/

namespace AddressEncoder

/-- The hash-algorithm selectors of the owcrypt collaborator that this file
uses (names as in the Go source, including the `HASh` typo). -/
inductive HashAlg where
  | HASh_ALG_DOUBLE_SHA256
  | HASH_ALG_KECCAK256
  | HASH_ALG_SHA3_256
  | HASH_ALG_HASH160
  | HASH_ALG_BLAKE2B
  | HASH_ALG_RIPEMD160
  | HASH_ALG_KECCAK256_RIPEMD160
  | HASH_ALG_SHA3_256_RIPEMD160
deriving DecidableEq

/-- Errors of the Go standard library `encoding/hex` decoder:
`InvalidByteError(c)` and `ErrLength`. -/
inductive HexErr where
  | invalidByte (c : Char)
  | errLength
deriving DecidableEq

/-- The error values `AddressDecode` can return: the two package-level
errors `ErrorInvalidAddress` / `ErrorInvalidHashLength`, or a hex-decode
error passed through unchanged on the ICX branch. -/
inductive AddrErr where
  | invalidAddress
  | invalidHashLength
  | hexError (e : HexErr)
deriving DecidableEq

/-- Outcome of running a piece of the Go code: a normal value, a returned
Go `error`, or a runtime panic (`crash`). -/
inductive Res (α : Type) where
  | ok (a : α)
  | err (e : AddrErr)
  | crash
deriving DecidableEq

/-- Sequencing of `Res` computations (a returned error or a panic aborts
the rest). -/
def Res.bind {α β : Type} : Res α → (α → Res β) → Res β
  | .ok a, f => f a
  | .err e, _ => .err e
  | .crash, _ => .crash

/-- Go slice expression `l[i:j]`: panics unless `i ≤ j ≤ len(l)`. -/
def goSlice (l : List Nat) (i j : Nat) : Res (List Nat) :=
  if i ≤ j ∧ j ≤ l.length then .ok ((l.drop i).take (j - i)) else .crash

/-- The external collaborators consumed by the codec, as one record of
pure functions, matching the interfaces in the design document. -/
structure Collaborators where
  Hash : List Nat → Nat → HashAlg → List Nat
  DoubleBlake256 : List Nat → List Nat
  Base58Encode : List Nat → String → List Char
  Base58Decode : List Char → String → Option (List Nat)
  Bech32Encode : String → String → List Nat → List Char
  Bech32Decode : List Char → String → Option (List Nat)
  PolyModEncode : String → String → List Nat → List Char
  PolyModDecode : List Char → String → Option (List Nat)
  Eip55Encode : List Nat → List Char
  Eip55Decode : List Char → Option (List Nat)

/-- The `AddressType` descriptor consumed by the codec.  Field `pre`
models the Go field `prefix` (renamed in this file; `suffix` keeps its
source name). -/
structure AddressType where
  encodeType : String
  alphabet : String
  checksumType : String
  hashType : String
  hashLen : Nat
  pre : List Nat
  suffix : List Nat

/-- `calcChecksum` from the source: picks a hash by `chkType` name and
keeps the first 4 bytes (`[:4]`, which panics if the collaborator returned
fewer than 4 bytes); an unknown `chkType` yields `nil` (here `[]`). -/
def calcChecksum (C : Collaborators) (data : List Nat) (chkType : String) : Res (List Nat) :=
  if chkType = "doubleSHA256" then goSlice (C.Hash data 0 .HASh_ALG_DOUBLE_SHA256) 0 4
  else if chkType = "doubleBlake256" then goSlice (C.DoubleBlake256 data) 0 4
  else if chkType = "keccak256" then goSlice (C.Hash data 0 .HASH_ALG_KECCAK256) 0 4
  else if chkType = "sha3_256" then goSlice (C.Hash data 0 .HASH_ALG_SHA3_256) 0 4
  else .ok []

/-- The comparison loop of `verifyChecksum`: for `i` from `0` while the
remaining count is positive, compare `checksum[i]` with the next of the
last-four bytes, returning `false` at the first mismatch; indexing past
the end of `checksum` is a panic (this is what happens when
`calcChecksum` returned `nil`). -/
def verify4 : Nat → List Nat → List Nat → Res Bool
  | 0, _, _ => .ok true
  | k + 1, c :: cs, d :: ds => if c ≠ d then .ok false else verify4 k cs ds
  | _ + 1, _, _ => .crash

/-- `verifyChecksum` from the source: slices off the last 4 bytes
(`data[:len(data)-4]` panics when `len(data) < 4`), recomputes the
checksum of the front, and compares it byte-for-byte with the tail. -/
def verifyChecksum (C : Collaborators) (data : List Nat) (chkType : String) : Res Bool :=
  if data.length < 4 then .crash
  else
    match calcChecksum C (data.take (data.length - 4)) chkType with
    | .crash => .crash
    | .err e => .err e
    | .ok checksum => verify4 4 checksum (data.drop (data.length - 4))

/-- `catData` from the source: `append(data1, data2...)` with the `nil`
shortcut. -/
def catData (data1 : List Nat) (data2 : List Nat) : List Nat :=
  if data2 = [] then data1 else data1 ++ data2

/-- One bounds-checked byte-comparison loop of `recoverData`: walk the
pattern over the front of `data`, `ErrorInvalidAddress` at the first
mismatch, panic when `data` runs out before the pattern does. -/
def cmpBytes : List Nat → List Nat → Res Unit
  | _, [] => .ok ()
  | [], _ :: _ => .crash
  | d :: ds, p :: ps => if d ≠ p then .err .invalidAddress else cmpBytes ds ps

/-- `recoverData` from the source: check the prefix bytes at the front of
`data`, the suffix bytes at its back (`data[len(data)-len(suffix)+i]` is a
panic when the index is negative), then return the middle slice
`data[len(pre) : len(data)-len(suffix)]` (a panic when the bounds cross).
The Go `suffix == nil` special cases coincide with `suffix = []` here. -/
def recoverData (data : List Nat) (pre : List Nat) (suffix : List Nat) : Res (List Nat) :=
  match cmpBytes data pre with
  | .err e => .err e
  | .crash => .crash
  | .ok _ =>
    match (if data.length < suffix.length then Res.crash
           else cmpBytes (data.drop (data.length - suffix.length)) suffix) with
    | .err e => .err e
    | .crash => .crash
    | .ok _ =>
      if pre.length + suffix.length ≤ data.length then
        .ok ((data.drop pre.length).take (data.length - suffix.length - pre.length))
      else .crash

/-- `encodeData` from the source: only `"base58"` is handled, anything
else yields the empty string. -/
def encodeData (C : Collaborators) (data : List Nat) (encodeType : String) (alphabet : String) :
    List Char :=
  if encodeType = "base58" then C.Base58Encode data alphabet else []

/-- `decodeData` from the source: on the `"base58"` path, text-decode
(failure becomes `ErrorInvalidAddress`), verify the checksum (mismatch is
`ErrorInvalidAddress`), then recover the frame from the checksum-stripped
buffer; any other `encodeType` returns `nil, nil`. -/
def decodeData (C : Collaborators) (data : List Char) (encodeType alphabet checkType : String)
    (pre suffix : List Nat) : Res (List Nat) :=
  if encodeType = "base58" then
    match C.Base58Decode data alphabet with
    | none => .err .invalidAddress
    | some ret =>
      match verifyChecksum C ret checkType with
      | .crash => .crash
      | .err e => .err e
      | .ok b =>
        if b = false then .err .invalidAddress
        else recoverData (ret.take (ret.length - 4)) pre suffix
  else .ok []

/-- `calcHash` from the source: dispatch on the `hashType` name to the
owcrypt collaborator, with the `sha3_256_last_twenty` case keeping bytes
`[12:32]` of a requested 32-byte output; an unknown name yields `nil`. -/
def calcHash (C : Collaborators) (data : List Nat) (hashType : String) : Res (List Nat) :=
  if hashType = "h160" then .ok (C.Hash data 0 .HASH_ALG_HASH160)
  else if hashType = "blake2b160" then .ok (C.Hash data 20 .HASH_ALG_BLAKE2B)
  else if hashType = "ripemd160" then .ok (C.Hash data 20 .HASH_ALG_RIPEMD160)
  else if hashType = "keccak256_ripemd160" then .ok (C.Hash data 0 .HASH_ALG_KECCAK256_RIPEMD160)
  else if hashType = "sha3_256_ripemd160" then .ok (C.Hash data 0 .HASH_ALG_SHA3_256_RIPEMD160)
  else if hashType = "keccak256" then .ok (C.Hash data 32 .HASH_ALG_KECCAK256)
  else if hashType = "sha3_256_last_twenty" then goSlice (C.Hash data 32 .HASH_ALG_SHA3_256) 12 32
  else .ok []

/-- One hex digit of the Go `encoding/hex` lowercase table. -/
def hexDigitChar (n : Nat) : Char :=
  if n < 10 then Char.ofNat (48 + n) else Char.ofNat (97 + n - 10)

/-- Go `hex.EncodeToString`: two lowercase hex digits per byte
(`b >> 4` then `b & 0x0f`). -/
def hexEncodeList : List Nat → List Char
  | [] => []
  | b :: bs => hexDigitChar (b / 16) :: hexDigitChar (b % 16) :: hexEncodeList bs

/-- Go `fromHexChar`: the value of one hex digit, accepting `0-9`, `a-f`,
`A-F`. -/
def hexDigitVal (c : Char) : Option Nat :=
  if 48 ≤ c.toNat ∧ c.toNat ≤ 57 then some (c.toNat - 48)
  else if 97 ≤ c.toNat ∧ c.toNat ≤ 102 then some (c.toNat - 97 + 10)
  else if 65 ≤ c.toNat ∧ c.toNat ≤ 70 then some (c.toNat - 65 + 10)
  else none

/-- Go `hex.DecodeString`: decode pairs left to right, failing with
`InvalidByteError` at the first non-hex character; a trailing lone
character gives `InvalidByteError` if it is not a hex digit and
`ErrLength` otherwise. -/
def hexDecodeList : List Char → Except HexErr (List Nat)
  | [] => .ok []
  | [c] =>
    match hexDigitVal c with
    | none => .error (.invalidByte c)
    | some _ => .error .errLength
  | c1 :: c2 :: cs =>
    match hexDigitVal c1 with
    | none => .error (.invalidByte c1)
    | some hi =>
      match hexDigitVal c2 with
      | none => .error (.invalidByte c2)
      | some lo => (hexDecodeList cs).map (fun bs => (hi * 16 + lo) :: bs)

/-- The tail of `AddressEncode` after the conditional re-hash: the
`base32PolyMod` / `eip55` / `ICX` branches and the generic framed
(base58) branch `prefix ++ hash ++ suffix ++ checksum`. -/
def encodeBody (C : Collaborators) (hash : List Nat) (t : AddressType) : Res (List Char) :=
  if t.encodeType = "base32PolyMod" then .ok (C.PolyModEncode t.checksumType t.alphabet hash)
  else if t.encodeType = "eip55" then .ok (C.Eip55Encode hash)
  else if t.encodeType = "ICX" then .ok (t.checksumType.data ++ hexEncodeList hash)
  else
    let data := catData (catData t.pre hash) t.suffix
    match calcChecksum C data t.checksumType with
    | .crash => .crash
    | .err e => .err e
    | .ok cs => .ok (encodeData C (catData data cs) t.encodeType t.alphabet)

/-- `AddressEncode` from the source: the bech32 branch short-circuits
before everything else; otherwise the input is re-hashed exactly when its
length differs from `hashLen`, and the remaining branches run on the
result. -/
def AddressEncode (C : Collaborators) (hash : List Nat) (t : AddressType) : Res (List Char) :=
  if t.encodeType = "bech32" then .ok (C.Bech32Encode t.checksumType t.alphabet hash)
  else
    (if hash.length ≠ t.hashLen then calcHash C hash t.hashType else .ok hash).bind
      (fun h => encodeBody C h t)

/-- `AddressDecode` from the source.  Note the ICX branch indexes
`address[0]` and `address[1]` before any length check (`address[0]` on an
empty string is a Go panic; the `||` is short-circuiting, so a first
character other than `h` returns before `address[1]` is read). -/
def AddressDecode (C : Collaborators) (address : List Char) (t : AddressType) :
    Res (List Nat) :=
  if t.encodeType = "bech32" then
    match C.Bech32Decode address t.alphabet with
    | none => .err .invalidAddress
    | some ret =>
      if ret.length ≠ 20 ∧ ret.length ≠ 32 then .err .invalidHashLength else .ok ret
  else if t.encodeType = "base32PolyMod" then
    match C.PolyModDecode address t.alphabet with
    | none => .err .invalidAddress
    | some ret =>
      if ret.length ≠ t.hashLen then .err .invalidHashLength else .ok ret
  else if t.encodeType = "eip55" then
    match C.Eip55Decode address with
    | none => .err .invalidAddress
    | some ret =>
      if ret.length ≠ 20 then .err .invalidHashLength else .ok ret
  else if t.encodeType = "ICX" then
    match address.get? 0 with
    | none => .crash
    | some c0 =>
      if c0 ≠ 'h' then .err .invalidAddress
      else
        match address.get? 1 with
        | none => .crash
        | some c1 =>
          if c1 ≠ 'x' then .err .invalidAddress
          else if address.length - 2 ≠ 40 then .err .invalidHashLength
          else
            match hexDecodeList (address.drop 2) with
            | .error e => .err (.hexError e)
            | .ok ret => .ok ret
  else
    match decodeData C address t.encodeType t.alphabet t.checksumType t.pre t.suffix with
    | .crash => .crash
    | .err e => .err e
    | .ok data =>
      if data.length ≠ t.hashLen then .err .invalidHashLength else .ok data

/-! ### Contracts of the external collaborators and basic lemmas -/

/-- The four checksum-algorithm names `calcChecksum` recognises. -/
def supportedChecksum (chk : String) : Prop :=
  chk = "doubleSHA256" ∨ chk = "doubleBlake256" ∨ chk = "keccak256" ∨ chk = "sha3_256"

/-- Part of the hashing collaborator's contract: the primitives used for
checksums return at least 4 bytes (SHA-256, Keccak-256, SHA3-256 and
Blake-256 all return 32). -/
def HashLen4 (C : Collaborators) : Prop :=
  (∀ d n a, 4 ≤ (C.Hash d n a).length) ∧ ∀ d, 4 ≤ (C.DoubleBlake256 d).length

/-- Spec-side rendering of the documented generic framed (base58) decode
pipeline, written from the design document's words: text-decode (failure is
`InvalidAddress`); verify the trailing 4-byte checksum over the full
decoded buffer (mismatch is `InvalidAddress`); strip the trailing 4
checksum bytes; require the stripped buffer to begin with the descriptor's
exact front-marker bytes and end with its exact `suffix` bytes (either
mismatch is `InvalidAddress`); finally require the remaining payload
length to equal `hashLen`, else `InvalidHashLength`. -/
def specFramedDecode (C : Collaborators) (address : List Char) (t : AddressType) :
    Res (List Nat) :=
  match C.Base58Decode address t.alphabet with
  | none => Res.err .invalidAddress
  | some ret =>
    let stripped := ret.take (ret.length - 4)
    if calcChecksum C stripped t.checksumType = Res.ok (ret.drop (ret.length - 4)) then
      if stripped.take t.pre.length = t.pre ∧
          stripped.drop (stripped.length - t.suffix.length) = t.suffix then
        let payload := (stripped.drop t.pre.length).take
          (stripped.length - t.suffix.length - t.pre.length)
        if payload.length = t.hashLen then Res.ok payload else Res.err .invalidHashLength
      else Res.err .invalidAddress
    else Res.err .invalidAddress

/-- The side conditions under which an encode followed by a decode of the
same `AddressType` must restore the digest: per dialect family, the
relevant text-codec collaborator round-trips on the value actually
encoded, and the descriptor/digest are consistent with the dialect
(bech32 payloads are 20 or 32 bytes; the ICX descriptor carries the
literal "hx" marker and a 20-byte digest of genuine byte values; the
framed base58 dialect uses one of the four supported checksum names and a
hashing collaborator honouring its output-length contract). -/
def RoundTripOK (C : Collaborators) (t : AddressType) (digest : List Nat) : Prop :=
  (t.encodeType = "bech32" ∧
    C.Bech32Decode (C.Bech32Encode t.checksumType t.alphabet digest) t.alphabet = some digest ∧
    (digest.length = 20 ∨ digest.length = 32)) ∨
  (t.encodeType = "base32PolyMod" ∧
    C.PolyModDecode (C.PolyModEncode t.checksumType t.alphabet digest) t.alphabet
      = some digest) ∨
  (t.encodeType = "eip55" ∧ C.Eip55Decode (C.Eip55Encode digest) = some digest ∧
    digest.length = 20) ∨
  (t.encodeType = "ICX" ∧ t.checksumType = "hx" ∧ digest.length = 20 ∧
    ∀ b ∈ digest, b < 256) ∨
  (t.encodeType = "base58" ∧ supportedChecksum t.checksumType ∧ HashLen4 C ∧
    ∀ cs, calcChecksum C (t.pre ++ digest ++ t.suffix) t.checksumType = Res.ok cs →
      C.Base58Decode (C.Base58Encode ((t.pre ++ digest ++ t.suffix) ++ cs) t.alphabet)
          t.alphabet
        = some ((t.pre ++ digest ++ t.suffix) ++ cs))

/-! ### Concrete collaborators and descriptors used to evaluate the
theorems on closed inputs -/

/-- An executable stand-in for the external collaborators: hashes are
constant 32-byte buffers, every text codec writes bytes out in hex.  It
satisfies the collaborators' length and round-trip contracts on byte
inputs, which is all the theorems assume of the real ones. -/
def CW : Collaborators where
  Hash := fun _ _ _ => List.replicate 32 7
  DoubleBlake256 := fun _ => List.replicate 32 9
  Base58Encode := fun bs _ => hexEncodeList bs
  Base58Decode := fun s _ => match hexDecodeList s with | .ok bs => some bs | .error _ => none
  Bech32Encode := fun _ _ bs => hexEncodeList bs
  Bech32Decode := fun s _ => match hexDecodeList s with | .ok bs => some bs | .error _ => none
  PolyModEncode := fun _ _ bs => hexEncodeList bs
  PolyModDecode := fun s _ => match hexDecodeList s with | .ok bs => some bs | .error _ => none
  Eip55Encode := fun bs => hexEncodeList bs
  Eip55Decode := fun s => match hexDecodeList s with | .ok bs => some bs | .error _ => none

/-- A small framed base58 descriptor: 2-byte digests framed by one front
byte and one suffix byte under a doubleSHA256 checksum. -/
def tB58 : AddressType := ⟨"base58", "abc", "doubleSHA256", "h160", 2, [5], [6]⟩

/-- The ICX descriptor: `checksumType` carries the literal "hx" marker. -/
def tICX : AddressType := ⟨"ICX", "", "hx", "", 20, [], []⟩

/-- A bech32 descriptor. -/
def tBech : AddressType := ⟨"bech32", "bc", "bech32", "", 20, [], []⟩

/-- A descriptor whose `encodeType` matches none of the five dialects. -/
def tUnk : AddressType := ⟨"hex", "", "", "", 0, [], []⟩

theorem catData_eq (a b : List Nat) : catData a b = a ++ b := by
  rw [catData]; split <;> simp_all

theorem goSlice04 (l : List Nat) (hl : 4 ≤ l.length) :
    goSlice l 0 4 = Res.ok (l.take 4) ∧ (l.take 4).length = 4 := by
  constructor
  · simp [goSlice, hl]
  · simp [List.length_take]; omega

theorem calcChecksum_ok (C : Collaborators) (d : List Nat) (chk : String)
    (hs : supportedChecksum chk) (h4 : HashLen4 C) :
    ∃ cs, calcChecksum C d chk = Res.ok cs ∧ cs.length = 4 := by
  obtain ⟨hh, hb⟩ := h4
  rcases hs with h | h | h | h <;> subst h
  · obtain ⟨h1, h2⟩ := goSlice04 (C.Hash d 0 .HASh_ALG_DOUBLE_SHA256) (hh d 0 _)
    exact ⟨_, h1, h2⟩
  · obtain ⟨h1, h2⟩ := goSlice04 (C.DoubleBlake256 d) (hb d)
    exact ⟨_, h1, h2⟩
  · obtain ⟨h1, h2⟩ := goSlice04 (C.Hash d 0 .HASH_ALG_KECCAK256) (hh d 0 _)
    exact ⟨_, h1, h2⟩
  · obtain ⟨h1, h2⟩ := goSlice04 (C.Hash d 0 .HASH_ALG_SHA3_256) (hh d 0 _)
    exact ⟨_, h1, h2⟩

theorem verify4_spec (k : Nat) (cs l4 : List Nat) (h1 : cs.length = k) (h2 : l4.length = k) :
    ∃ b, verify4 k cs l4 = Res.ok b ∧ (b = true ↔ cs = l4) := by
  induction k generalizing cs l4 with
  | zero =>
    rw [List.length_eq_zero] at h1 h2
    subst h1; subst h2
    exact ⟨true, rfl, by simp⟩
  | succ k ih =>
    match cs, l4 with
    | c :: cs, d :: ds =>
      simp only [List.length_cons, Nat.succ.injEq] at h1 h2
      by_cases hc : c = d
      · subst hc
        obtain ⟨b, hb, hiff⟩ := ih cs ds h1 h2
        exact ⟨b, by simpa [verify4] using hb, by simpa using hiff⟩
      · exact ⟨false, by simp [verify4, hc], by simp [hc]⟩

theorem cmpBytes_ok (pat : List Nat) (data : List Nat) (h : pat.length ≤ data.length) :
    cmpBytes data pat =
      if data.take pat.length = pat then Res.ok () else Res.err .invalidAddress := by
  induction pat generalizing data with
  | nil => simp [cmpBytes]
  | cons p ps ih =>
    match data with
    | [] => simp at h
    | d :: ds =>
      have h' : ps.length ≤ ds.length := by simpa using h
      by_cases hd : d = p
      · subst hd
        rw [show cmpBytes (d :: ds) (d :: ps) = cmpBytes ds ps from by simp [cmpBytes]]
        rw [ih ds h']
        simp
      · simp [cmpBytes, hd]

theorem verifyChecksum_char (C : Collaborators) (data : List Nat) (chk : String)
    (hlen : 4 ≤ data.length) (hs : supportedChecksum chk) (h4 : HashLen4 C) :
    ∃ cs b, calcChecksum C (data.take (data.length - 4)) chk = Res.ok cs ∧ cs.length = 4 ∧
      verifyChecksum C data chk = Res.ok b ∧ (b = true ↔ cs = data.drop (data.length - 4)) := by
  obtain ⟨cs, hcs, hcs4⟩ := calcChecksum_ok C (data.take (data.length - 4)) chk hs h4
  have hd4 : (data.drop (data.length - 4)).length = 4 := by
    simp [List.length_drop]; omega
  obtain ⟨b, hb, hiff⟩ := verify4_spec 4 cs (data.drop (data.length - 4)) hcs4 hd4
  refine ⟨cs, b, hcs, hcs4, ?_, hiff⟩
  rw [verifyChecksum, if_neg (by omega), hcs]
  exact hb

theorem recoverData_char (data pre suffix : List Nat)
    (h : pre.length + suffix.length ≤ data.length) :
    recoverData data pre suffix =
      if data.take pre.length = pre ∧ data.drop (data.length - suffix.length) = suffix then
        Res.ok ((data.drop pre.length).take (data.length - suffix.length - pre.length))
      else Res.err .invalidAddress := by
  have hp : pre.length ≤ data.length := by omega
  have hsl : (data.drop (data.length - suffix.length)).length = suffix.length := by
    simp [List.length_drop]; omega
  have htake : (data.drop (data.length - suffix.length)).take suffix.length
      = data.drop (data.length - suffix.length) :=
    List.take_of_length_le hsl.le
  rw [recoverData, cmpBytes_ok pre data hp, if_neg (by omega : ¬ data.length < suffix.length),
      cmpBytes_ok suffix (data.drop (data.length - suffix.length)) (by omega), htake]
  by_cases h1 : data.take pre.length = pre
  · by_cases h2 : data.drop (data.length - suffix.length) = suffix
    · simp [h1, h2, if_pos h]
    · simp [h1, h2]
  · by_cases h2 : data.drop (data.length - suffix.length) = suffix
    · simp [h1, h2]
    · simp [h1, h2]

theorem hexEncodeList_length (bs : List Nat) : (hexEncodeList bs).length = 2 * bs.length := by
  induction bs with
  | nil => rfl
  | cons b bs ih => simp [hexEncodeList, ih]; omega

theorem hexDigitVal_hexDigitChar (n : Nat) (h : n < 16) :
    hexDigitVal (hexDigitChar n) = some n := by
  interval_cases n <;> decide

theorem hexDecode_hexEncode (bs : List Nat) (h : ∀ b ∈ bs, b < 256) :
    hexDecodeList (hexEncodeList bs) = .ok bs := by
  induction bs with
  | nil => rfl
  | cons b bs ih =>
    have hb : b < 256 := h b (by simp)
    have h1 : b / 16 < 16 := by omega
    have h2 : b % 16 < 16 := by omega
    have ih' := ih (fun x hx => h x (by simp [hx]))
    simp only [hexEncodeList, hexDecodeList, hexDigitVal_hexDigitChar _ h1,
          hexDigitVal_hexDigitChar _ h2, ih', Except.map]
    congr 1
    simp
    omega

theorem hexDecodeList_length : ∀ (cs : List Char) (bs : List Nat),
    hexDecodeList cs = .ok bs → 2 * bs.length = cs.length
  | [], bs, h => by
    simp only [hexDecodeList] at h
    cases h
    rfl
  | [c], bs, h => by
    simp only [hexDecodeList] at h
    cases hv : hexDigitVal c <;> rw [hv] at h <;> simp at h
  | c1 :: c2 :: cs, bs, h => by
    simp only [hexDecodeList] at h
    cases hv1 : hexDigitVal c1 <;> rw [hv1] at h
    · simp at h
    cases hv2 : hexDigitVal c2 <;> rw [hv2] at h
    · simp at h
    cases hrest : hexDecodeList cs <;> rw [hrest] at h <;> simp [Except.map] at h
    subst h
    have := hexDecodeList_length cs _ hrest
    simp only [List.length_cons, List.length_cons]
    omega

/-! ### Branch-selection and framing lemmas -/

theorem AddressDecode_frame (C : Collaborators) (address : List Char) (t : AddressType)
    (hET : t.encodeType = "base58") :
    AddressDecode C address t =
      match decodeData C address t.encodeType t.alphabet t.checksumType t.pre t.suffix with
      | .crash => Res.crash
      | .err e => Res.err e
      | .ok data =>
        if data.length ≠ t.hashLen then Res.err .invalidHashLength else Res.ok data := by
  rw [AddressDecode, if_neg (by rw [hET]; decide), if_neg (by rw [hET]; decide),
      if_neg (by rw [hET]; decide), if_neg (by rw [hET]; decide)]

theorem decodeData_some (C : Collaborators) (address : List Char) (t : AddressType)
    (ret : List Nat) (b : Bool)
    (hET : t.encodeType = "base58")
    (hdec : C.Base58Decode address t.alphabet = some ret)
    (hver : verifyChecksum C ret t.checksumType = Res.ok b) :
    decodeData C address t.encodeType t.alphabet t.checksumType t.pre t.suffix =
      if b = false then Res.err .invalidAddress
      else recoverData (ret.take (ret.length - 4)) t.pre t.suffix := by
  rw [hET]
  rw [decodeData, if_pos rfl]
  simp only [hdec, hver]

theorem verifyChecksum_frame (C : Collaborators) (data cs : List Nat) (chk : String)
    (hcs : calcChecksum C data chk = Res.ok cs) (hcs4 : cs.length = 4) :
    verifyChecksum C (data ++ cs) chk = Res.ok true := by
  have hl : (data ++ cs).length = data.length + 4 := by simp [hcs4]
  have ht : (data ++ cs).take ((data ++ cs).length - 4) = data :=
    List.take_left' (by omega)
  have hd : (data ++ cs).drop ((data ++ cs).length - 4) = cs :=
    List.drop_left' (by omega)
  rw [verifyChecksum, if_neg (by omega), ht, hd, hcs]
  obtain ⟨b, hb, hiff⟩ := verify4_spec 4 cs cs hcs4 hcs4
  calc verify4 4 cs cs = Res.ok b := hb
  _ = Res.ok true := by rw [hiff.mpr rfl]

theorem recoverData_frame (pre digest suffix : List Nat) :
    recoverData (pre ++ digest ++ suffix) pre suffix = Res.ok digest := by
  have hl : (pre ++ digest ++ suffix).length
      = pre.length + digest.length + suffix.length := by simp; omega
  rw [recoverData_char _ _ _ (by omega)]
  have h1 : (pre ++ digest ++ suffix).take pre.length = pre := by
    rw [List.append_assoc]
    exact List.take_left' rfl
  have h2 : (pre ++ digest ++ suffix).drop
      ((pre ++ digest ++ suffix).length - suffix.length) = suffix :=
    List.drop_left' (by simp; omega)
  rw [if_pos ⟨h1, h2⟩]
  have h3 : (pre ++ digest ++ suffix).drop pre.length = digest ++ suffix := by
    rw [List.append_assoc]
    exact List.drop_left' rfl
  rw [h3]
  congr 1
  rw [show (pre ++ digest ++ suffix).length - suffix.length - pre.length = digest.length
      from by omega]
  exact List.take_left' rfl

theorem AddressEncode_noHash (C : Collaborators) (digest : List Nat) (t : AddressType)
    (hET : t.encodeType ≠ "bech32") (hlen : digest.length = t.hashLen) :
    AddressEncode C digest t = encodeBody C digest t := by
  simp [AddressEncode, hET, hlen, Res.bind]

theorem encodeBody_base58 (C : Collaborators) (digest : List Nat) (t : AddressType)
    (hET : t.encodeType = "base58") (cs : List Nat)
    (hcs : calcChecksum C (t.pre ++ digest ++ t.suffix) t.checksumType = Res.ok cs) :
    encodeBody C digest t
      = Res.ok (C.Base58Encode ((t.pre ++ digest ++ t.suffix) ++ cs) t.alphabet) := by
  have hcat : catData (catData t.pre digest) t.suffix = t.pre ++ digest ++ t.suffix := by
    simp [catData_eq]
  simp [encodeBody, hET, hcat, encodeData, catData_eq]
  simp only [List.append_assoc] at hcs
  rw [hcs]

/-! ### The claims -/

/-- C1: for every `AddressType` of the five supported dialect families and
every valid digest whose length equals the descriptor's `hashLen`
(validity and the collaborators' §6 contracts captured by `RoundTripOK`),
decoding the encoded address returns that same digest with no error. -/
theorem address_round_trip (C : Collaborators) (t : AddressType) (digest : List Nat)
    (hlen : digest.length = t.hashLen) (hrt : RoundTripOK C t digest) :
    (AddressEncode C digest t).bind (fun address => AddressDecode C address t)
      = Res.ok digest := by
  rcases hrt with ⟨hET, hdec, h2032⟩ | ⟨hET, hdec⟩ | ⟨hET, hdec, h20⟩ |
    ⟨hET, hchk, h20, hbytes⟩ | ⟨hET, hs, h4, hdec⟩
  · -- bech32
    have henc : AddressEncode C digest t
        = Res.ok (C.Bech32Encode t.checksumType t.alphabet digest) := by
      simp [AddressEncode, hET]
    rw [henc]
    show AddressDecode C (C.Bech32Encode t.checksumType t.alphabet digest) t = Res.ok digest
    rcases h2032 with h | h <;> simp [AddressDecode, hET, hdec, h]
  · -- base32PolyMod
    rw [AddressEncode_noHash C digest t (by rw [hET]; decide) hlen]
    rw [show encodeBody C digest t
        = Res.ok (C.PolyModEncode t.checksumType t.alphabet digest) from by
          simp [encodeBody, hET]]
    show AddressDecode C (C.PolyModEncode t.checksumType t.alphabet digest) t = Res.ok digest
    simp [AddressDecode, hET, hdec, hlen]
  · -- eip55
    rw [AddressEncode_noHash C digest t (by rw [hET]; decide) hlen]
    rw [show encodeBody C digest t = Res.ok (C.Eip55Encode digest) from by
      simp [encodeBody, hET]]
    show AddressDecode C (C.Eip55Encode digest) t = Res.ok digest
    simp [AddressDecode, hET, hdec, h20]
  · -- ICX
    rw [AddressEncode_noHash C digest t (by rw [hET]; decide) hlen]
    rw [show encodeBody C digest t
        = Res.ok (t.checksumType.data ++ hexEncodeList digest) from by
          simp [encodeBody, hET]]
    show AddressDecode C (t.checksumType.data ++ hexEncodeList digest) t = Res.ok digest
    have hfix : t.checksumType.data = ['h', 'x'] := by rw [hchk]
    have hlen40 : (hexEncodeList digest).length = 40 := by
      rw [hexEncodeList_length, h20]
    simp [AddressDecode, hET, hfix, hlen40, hexDecode_hexEncode digest hbytes]
  · -- base58
    obtain ⟨cs, hcs, hcs4⟩ :=
      calcChecksum_ok C (t.pre ++ digest ++ t.suffix) t.checksumType hs h4
    rw [AddressEncode_noHash C digest t (by rw [hET]; decide) hlen,
        encodeBody_base58 C digest t hET cs hcs]
    show AddressDecode C
        (C.Base58Encode ((t.pre ++ digest ++ t.suffix) ++ cs) t.alphabet) t = Res.ok digest
    rw [AddressDecode_frame C _ t hET]
    have hver : verifyChecksum C ((t.pre ++ digest ++ t.suffix) ++ cs) t.checksumType
        = Res.ok true := verifyChecksum_frame C _ cs t.checksumType hcs hcs4
    rw [decodeData_some C _ t ((t.pre ++ digest ++ t.suffix) ++ cs) true hET
        (hdec cs hcs) hver]
    rw [if_neg (by decide : ¬ (true = false))]
    have htk : (((t.pre ++ digest ++ t.suffix) ++ cs).take
        (((t.pre ++ digest ++ t.suffix) ++ cs).length - 4)) = t.pre ++ digest ++ t.suffix :=
      List.take_left' (by simp [hcs4]; omega)
    rw [htk, recoverData_frame t.pre digest t.suffix]
    simp [hlen]

/-- Witness for C1 on the framed base58 dialect: digest `[1, 2]` under
`tB58` round-trips through the concrete collaborators `CW`. -/
theorem address_round_trip_witness :
    (AddressEncode CW [1, 2] tB58).bind (fun address => AddressDecode CW address tB58)
      = Res.ok [1, 2] :=
  address_round_trip CW tB58 [1, 2] (by decide)
    (Or.inr (Or.inr (Or.inr (Or.inr ⟨rfl, Or.inl rfl,
      ⟨fun _ _ _ => by simp [CW], fun _ => by simp [CW]⟩,
      fun cs hcs => by
        have h77 : calcChecksum CW (tB58.pre ++ [1, 2] ++ tB58.suffix) tB58.checksumType
            = Res.ok [7, 7, 7, 7] := by decide
        have hcs' : Res.ok (α := List Nat) [7, 7, 7, 7] = Res.ok cs := h77.symm.trans hcs
        injection hcs' with h
        subst h
        decide⟩))))

/-- C2: on the generic framed (base58) decode path, `AddressDecode` is the
documented ordered pipeline `specFramedDecode`: text-decode failure gives
`InvalidAddress`; then the trailing 4-byte checksum is verified (mismatch
gives `InvalidAddress`); then the checksum bytes are stripped and the
front/back markers are matched on the checksum-stripped buffer (mismatch
gives `InvalidAddress`); finally a payload whose length differs from
`hashLen` gives `InvalidHashLength`.  The size hypothesis `hsz` keeps the
decoded buffer long enough for the checksum and frame, the regime the
claim describes. -/
theorem framed_decode_spec (C : Collaborators) (address : List Char) (t : AddressType)
    (hET : t.encodeType = "base58") (hs : supportedChecksum t.checksumType)
    (h4 : HashLen4 C)
    (hsz : ∀ ret, C.Base58Decode address t.alphabet = some ret →
      4 + t.pre.length + t.suffix.length ≤ ret.length) :
    AddressDecode C address t = specFramedDecode C address t := by
  rw [AddressDecode_frame C address t hET]
  cases hdec : C.Base58Decode address t.alphabet with
  | none =>
    rw [show decodeData C address t.encodeType t.alphabet t.checksumType t.pre t.suffix
        = Res.err .invalidAddress from by rw [hET, decodeData, if_pos rfl]; simp only [hdec]]
    simp only [specFramedDecode, hdec]
  | some ret =>
    have hsz' := hsz ret hdec
    obtain ⟨cs, b, hcs, hcs4, hver, hiff⟩ :=
      verifyChecksum_char C ret t.checksumType (by omega) hs h4
    rw [decodeData_some C address t ret b hET hdec hver]
    have hstrlen : (ret.take (ret.length - 4)).length = ret.length - 4 := by
      simp [List.length_take]
    simp only [specFramedDecode, hdec, hcs]
    by_cases hmatch : cs = ret.drop (ret.length - 4)
    · have hb : b = true := hiff.mpr hmatch
      subst hb
      rw [if_neg (by decide : ¬ (true = false))]
      rw [if_pos (by rw [hmatch])]
      rw [recoverData_char (ret.take (ret.length - 4)) t.pre t.suffix (by omega)]
      by_cases hcond : (ret.take (ret.length - 4)).take t.pre.length = t.pre ∧
          (ret.take (ret.length - 4)).drop ((ret.take (ret.length - 4)).length - t.suffix.length)
            = t.suffix
      · rw [if_pos hcond, if_pos hcond]
        by_cases hplen : (((ret.take (ret.length - 4)).drop t.pre.length).take
            ((ret.take (ret.length - 4)).length - t.suffix.length - t.pre.length)).length
            = t.hashLen
        · simp [hplen]
        · simp [hplen]
      · rw [if_neg hcond, if_neg hcond]
    · have hb : b = false := by
        cases b
        · rfl
        · exact absurd (hiff.mp rfl) hmatch
      subst hb
      rw [if_pos rfl]
      rw [if_neg (by simp [hmatch])]

/-- Witness for C2: a concrete base58 address whose decoded buffer is
`[5, 1, 2, 6, 7, 7, 7, 7]`. -/
theorem framed_decode_spec_witness :
    AddressDecode CW (hexEncodeList [5, 1, 2, 6, 7, 7, 7, 7]) tB58 =
      specFramedDecode CW (hexEncodeList [5, 1, 2, 6, 7, 7, 7, 7]) tB58 :=
  framed_decode_spec CW (hexEncodeList [5, 1, 2, 6, 7, 7, 7, 7]) tB58 rfl (Or.inl rfl)
    ⟨fun _ _ _ => by simp [CW], fun _ => by simp [CW]⟩
    (by intro ret h
        injection h with h
        subst h
        decide)

/-- C3: contrary to the claim that `AddressDecode` always fails closed,
the ICX branch reads `address[0]` before any length check, so an empty
input string is a runtime panic (index out of range), not a returned
error — the code, not the claim, is at fault here. -/
theorem icx_decode_empty_crashes : AddressDecode CW [] tICX = Res.crash := rfl

/-- C4: on the generic framed (base58) encode path, the encoded buffer is
exactly marker bytes ++ digest ++ suffix, the 4-byte checksum is computed
over that whole concatenation, appended last, and the full buffer is
text-encoded. -/
theorem framed_encode_spec (C : Collaborators) (digest : List Nat) (t : AddressType)
    (hET : t.encodeType = "base58") (hlen : digest.length = t.hashLen)
    (hs : supportedChecksum t.checksumType) (h4 : HashLen4 C) :
    ∃ cs, calcChecksum C (t.pre ++ digest ++ t.suffix) t.checksumType = Res.ok cs ∧
      cs.length = 4 ∧
      AddressEncode C digest t =
        Res.ok (C.Base58Encode ((t.pre ++ digest ++ t.suffix) ++ cs) t.alphabet) := by
  obtain ⟨cs, hcs, hcs4⟩ := calcChecksum_ok C (t.pre ++ digest ++ t.suffix) t.checksumType hs h4
  refine ⟨cs, hcs, hcs4, ?_⟩
  rw [AddressEncode_noHash C digest t (by rw [hET]; decide) hlen]
  exact encodeBody_base58 C digest t hET cs hcs

/-- Witness for C4: encoding `[1, 2]` under `tB58` with the concrete
collaborators. -/
theorem framed_encode_spec_witness :
    ∃ cs, calcChecksum CW (tB58.pre ++ [1, 2] ++ tB58.suffix) tB58.checksumType = Res.ok cs ∧
      cs.length = 4 ∧
      AddressEncode CW [1, 2] tB58 =
        Res.ok (CW.Base58Encode ((tB58.pre ++ [1, 2] ++ tB58.suffix) ++ cs) tB58.alphabet) :=
  framed_encode_spec CW [1, 2] tB58 rfl (by decide) (Or.inl rfl)
    ⟨fun _ _ _ => by simp [CW], fun _ => by simp [CW]⟩

/-- C5: for the ICX dialect (on inputs long enough to have two leading
characters, the regime the claim quantifies over), decode rejects any
input whose first two characters are not exactly "hx" with
`InvalidAddress` (case-sensitively, so "hX…" is rejected), rejects an
"hx"-prefixed input whose remainder is not exactly 40 characters with
`InvalidHashLength`, and otherwise hex-decodes the 40-character remainder
into a 20-byte digest, passing any hex-decode failure through. -/
theorem icx_decode_spec (C : Collaborators) (address : List Char) (t : AddressType)
    (hET : t.encodeType = "ICX") (hlen : 2 ≤ address.length) :
    (address.take 2 ≠ ['h', 'x'] → AddressDecode C address t = Res.err .invalidAddress) ∧
    (address.take 2 = ['h', 'x'] → address.length - 2 ≠ 40 →
      AddressDecode C address t = Res.err .invalidHashLength) ∧
    (address.take 2 = ['h', 'x'] → address.length - 2 = 40 →
      AddressDecode C address t =
        match hexDecodeList (address.drop 2) with
        | .error e => Res.err (.hexError e)
        | .ok ret => Res.ok ret) ∧
    (∀ ret, address.length - 2 = 40 → hexDecodeList (address.drop 2) = .ok ret →
      ret.length = 20) := by
  match address, hlen with
  | a :: b :: rest, _ =>
    refine ⟨?_, ?_, ?_, ?_⟩
    · intro hne
      by_cases ha : a = 'h'
      · by_cases hb : b = 'x'
        · exact absurd (by simp [ha, hb]) hne
        · simp [AddressDecode, hET, ha, hb]
      · simp [AddressDecode, hET, ha]
    · intro heq h40
      have ha : a = 'h' := by simpa using congrArg (fun l => l.headI) heq
      have hb : b = 'x' := by
        have := congrArg (fun l => l.tail.headI) heq
        simpa using this
      have h40' : rest.length ≠ 40 := by simpa using h40
      simp [AddressDecode, hET, ha, hb, h40']
    · intro heq h40
      have ha : a = 'h' := by simpa using congrArg (fun l => l.headI) heq
      have hb : b = 'x' := by
        have := congrArg (fun l => l.tail.headI) heq
        simpa using this
      have h40' : rest.length = 40 := by simpa using h40
      simp [AddressDecode, hET, ha, hb, h40']
    · intro ret h40 hdec
      have := hexDecodeList_length _ _ hdec
      simp at this h40
      omega

/-- Witness for C5: the mixed-case input "hX" followed by 40 characters is
rejected with `InvalidAddress`. -/
theorem icx_decode_spec_witness :
    AddressDecode CW ('h' :: 'X' :: List.replicate 40 'a') tICX = Res.err .invalidAddress :=
  (icx_decode_spec CW ('h' :: 'X' :: List.replicate 40 'a') tICX rfl (by decide)).1 (by decide)

/-- C6: on encode, the bech32 branch short-circuits before the digest
length is ever compared (the raw input goes straight to the bech32
collaborator, whatever `hashLen` and `hashType` hold); on every other
branch the hash selector runs exactly when the input length differs from
`hashLen`, and an input already of length `hashLen` is framed unchanged. -/
theorem encode_hash_dispatch (C : Collaborators) (input : List Nat) (t : AddressType) :
    (t.encodeType = "bech32" →
      AddressEncode C input t = Res.ok (C.Bech32Encode t.checksumType t.alphabet input)) ∧
    (t.encodeType ≠ "bech32" → input.length = t.hashLen →
      AddressEncode C input t = encodeBody C input t) ∧
    (t.encodeType ≠ "bech32" → input.length ≠ t.hashLen →
      AddressEncode C input t = (calcHash C input t.hashType).bind fun h => encodeBody C h t) :=
  ⟨fun h => by simp [AddressEncode, h],
   fun h hl => by simp [AddressEncode, h, hl, Res.bind],
   fun h hl => by simp [AddressEncode, h, hl]⟩

/-- Witness for C6: a bech32 encode of a 3-byte input (whose length
differs from the descriptor's `hashLen`) goes straight to the bech32
collaborator. -/
theorem encode_hash_dispatch_witness :
    AddressEncode CW [1, 2, 3] tBech
      = Res.ok (CW.Bech32Encode tBech.checksumType tBech.alphabet [1, 2, 3]) :=
  (encode_hash_dispatch CW [1, 2, 3] tBech).1 rfl

/-- C7: for the bech32 dialect, `AddressDecode` returns `InvalidAddress`
exactly when the bech32 collaborator's decode fails, and on collaborator
success returns the payload exactly when its length is 20 or 32 bytes,
`InvalidHashLength` otherwise. -/
theorem bech32_decode_spec (C : Collaborators) (address : List Char) (t : AddressType)
    (hET : t.encodeType = "bech32") :
    AddressDecode C address t =
      match C.Bech32Decode address t.alphabet with
      | none => Res.err .invalidAddress
      | some ret =>
        if ret.length = 20 ∨ ret.length = 32 then Res.ok ret
        else Res.err .invalidHashLength := by
  cases hdec : C.Bech32Decode address t.alphabet with
  | none => simp [AddressDecode, hET, hdec]
  | some ret =>
    rcases eq_or_ne ret.length 20 with h20 | h20 <;>
      rcases eq_or_ne ret.length 32 with h32 | h32 <;>
      simp [AddressDecode, hET, hdec, h20, h32]

/-- Witness for C7: a bech32 address decoding to a 20-byte payload. -/
theorem bech32_decode_spec_witness :
    AddressDecode CW (hexEncodeList (List.replicate 20 3)) tBech =
      match CW.Bech32Decode (hexEncodeList (List.replicate 20 3)) tBech.alphabet with
      | none => Res.err .invalidAddress
      | some ret =>
        if ret.length = 20 ∨ ret.length = 32 then Res.ok ret
        else Res.err .invalidHashLength :=
  bech32_decode_spec CW (hexEncodeList (List.replicate 20 3)) tBech rfl

/-- C8: for every buffer of at least 4 bytes and every supported checksum
name (under the hashing collaborator's output-length contract),
`verifyChecksum` recomputes the 4-byte checksum over all bytes except the
last 4 and compares it byte-for-byte with the trailing 4 bytes, returning
`true` exactly when they all match. -/
theorem verifyChecksum_spec (C : Collaborators) (data : List Nat) (chkType : String)
    (hlen : 4 ≤ data.length) (hs : supportedChecksum chkType) (h4 : HashLen4 C) :
    ∃ cs b, calcChecksum C (data.take (data.length - 4)) chkType = Res.ok cs ∧
      cs.length = 4 ∧ verifyChecksum C data chkType = Res.ok b ∧
      (b = true ↔ cs = data.drop (data.length - 4)) :=
  verifyChecksum_char C data chkType hlen hs h4

/-- Witness for C8 on the 5-byte buffer `[1, 2, 3, 4, 5]`. -/
theorem verifyChecksum_spec_witness :
    ∃ cs b, calcChecksum CW (List.take ([1, 2, 3, 4, 5].length - 4) [1, 2, 3, 4, 5])
        "doubleSHA256" = Res.ok cs ∧
      cs.length = 4 ∧ verifyChecksum CW [1, 2, 3, 4, 5] "doubleSHA256" = Res.ok b ∧
      (b = true ↔ cs = List.drop ([1, 2, 3, 4, 5].length - 4) [1, 2, 3, 4, 5]) :=
  verifyChecksum_spec CW [1, 2, 3, 4, 5] "doubleSHA256" (by decide) (Or.inl rfl)
    ⟨fun _ _ _ => by simp [CW], fun _ => by simp [CW]⟩

/-- C9: for the `sha3_256_last_twenty` hash type, the hash selector asks
the hashing collaborator for a 32-byte SHA3-256 output and keeps only its
last 20 bytes (dropping the leading 12), for every input. -/
theorem calcHash_sha3_last20 (C : Collaborators) (data : List Nat)
    (h32 : (C.Hash data 32 .HASH_ALG_SHA3_256).length = 32) :
    calcHash C data "sha3_256_last_twenty"
        = Res.ok ((C.Hash data 32 .HASH_ALG_SHA3_256).drop 12) ∧
      ((C.Hash data 32 .HASH_ALG_SHA3_256).drop 12).length = 20 := by
  constructor
  · rw [show calcHash C data "sha3_256_last_twenty"
        = goSlice (C.Hash data 32 .HASH_ALG_SHA3_256) 12 32 from rfl]
    rw [goSlice, if_pos (by omega)]
    congr 1
    apply List.take_of_length_le
    simp [List.length_drop]; omega
  · simp [List.length_drop, h32]

/-- Witness for C9 at input `[1]` with the concrete collaborators. -/
theorem calcHash_sha3_last20_witness :
    calcHash CW [1] "sha3_256_last_twenty"
        = Res.ok ((CW.Hash [1] 32 .HASH_ALG_SHA3_256).drop 12) ∧
      ((CW.Hash [1] 32 .HASH_ALG_SHA3_256).drop 12).length = 20 :=
  calcHash_sha3_last20 CW [1] (by decide)

/-- C10: for a descriptor whose `encodeType` is none of the five dialects,
`AddressDecode` falls through `decodeData`'s final `nil, nil` return: it
succeeds with an empty digest when `hashLen` is 0 and returns
`InvalidHashLength` otherwise — no unsupported-variant error exists. -/
theorem unknown_encodeType_decode (C : Collaborators) (address : List Char) (t : AddressType)
    (h1 : t.encodeType ≠ "bech32") (h2 : t.encodeType ≠ "base32PolyMod")
    (h3 : t.encodeType ≠ "eip55") (h4 : t.encodeType ≠ "ICX") (h5 : t.encodeType ≠ "base58") :
    AddressDecode C address t =
      if t.hashLen = 0 then Res.ok [] else Res.err .invalidHashLength := by
  by_cases h : t.hashLen = 0
  · simp [AddressDecode, decodeData, h1, h2, h3, h4, h5, h]
  · simp [AddressDecode, decodeData, h1, h2, h3, h4, h5, h]
    omega

/-- Witness for C10: the descriptor `tUnk` (encode type "hex",
`hashLen` 0) decodes any text to the empty digest. -/
theorem unknown_encodeType_decode_witness :
    AddressDecode CW ['a'] tUnk =
      if tUnk.hashLen = 0 then Res.ok [] else Res.err .invalidHashLength :=
  unknown_encodeType_decode CW ['a'] tUnk (by decide) (by decide) (by decide) (by decide)
    (by decide)

end AddressEncoder
